import Mathlib

/-!
# Verification of the email-categorizer mail-sync and enrichment pipeline

Shallow embedding of the incremental Gmail-sync core of the repository:

* the sender-header normalizer used in the webhook import loop and the worker
  service (the two JS regexes `/^(.+?)\s*<(.+?)>$/` and
  `/[\w\.-]+@[\w\.-]+\.\w+/`);
* `EmailDbService.emailExists` / `EmailDbService.insertEmail`;
* the Gmail push-notification webhook handler `router.post('/gmail')`
  (envelope classification, user lookup, history fetch, per-message import
  loop, archiving, cursor update);
* the 401-refresh-retry control flow of `GmailService.fetchEmailsSinceHistoryId`
  and the per-message archive loop of `GmailService.archiveEmails`;
* `AIService.summarizeEmail` with its internal fallback, and the
  `/ai-summarize` worker route.

External collaborators (Supabase, the Gmail REST API, OpenAI) are modelled as
explicit outcome parameters threaded through the functions, so every run of the
embedded code is a deterministic function of the initial store and the
collaborator outcomes.
-/

set_option autoImplicit false

namespace EmailCat

/-! ## Sender-header normalization

Embeds the sender-extraction block that appears identically in the message
loop of the webhook (`routes/webhooks.ts`, `router.post('/gmail')`) and in
`workerService.processEmailsWorker`:

```js
let senderEmail = email.from || '';
let senderName = undefined;
if (email.from) {
  const nameMatch = email.from.match(/^(.+?)\s*<(.+?)>$/);
  if (nameMatch) {
    senderName = nameMatch[1].trim().replace(/"/g, '');
    senderEmail = nameMatch[2].trim();
  } else {
    const emailMatch = email.from.match(/[\w\.-]+@[\w\.-]+\.\w+/);
    if (emailMatch) senderEmail = emailMatch[0];
  }
}
```
-/

/-- JS regexp `.` matches any character except a line terminator. -/
def isLineTerm (c : Char) : Bool :=
  c = '\n' ∨ c = '\r' ∨ c = ' ' ∨ c = ' '

/-- JS regexp `\s` (the whitespace characters relevant to header strings). -/
def isJsSpace (c : Char) : Bool :=
  c = ' ' ∨ c = '\t' ∨ c = '\n' ∨ c = '\r' ∨ c = '\x0b' ∨ c = '\x0c' ∨
  c = ' ' ∨ c = '﻿' ∨ c = ' ' ∨ c = ' '

/-- JS regexp `\w`: ASCII letters, digits and underscore. -/
def isWordChar (c : Char) : Bool :=
  c.isAlphanum ∨ c = '_'

/-- Character class `[\w\.-]` of the bare-email regexp. -/
def isTokClass (c : Char) : Bool :=
  isWordChar c ∨ c = '.' ∨ c = '-'

/-- Helper for `/^(.+?)\s*<(.+?)>$/`: given the text after the `<`, the lazy
`(.+?)>$` matches exactly when the last character is `>` and at least one
non-line-terminator character precedes it; the second group is everything
strictly between. -/
def checkTail (tail : List Char) : Option (List Char) :=
  match tail.reverse with
  | [] => none
  | last :: revG2 =>
    if last = '>' ∧ revG2 ≠ [] ∧ revG2.all (fun c => ¬ isLineTerm c) then
      some revG2.reverse
    else none

/-- Lazy search for `/^(.+?)\s*<(.+?)>$/`: the first group grows one character
at a time (it may not contain a line terminator); after it, `\s*` can only stop
at the first non-whitespace character, which must be `<`; then `checkTail`
decides the rest.  `accRev` is the reversed first group built so far. -/
def goSplit : List Char → List Char → Option (List Char × List Char)
  | _, [] => none
  | accRev, c :: rest =>
    if isLineTerm c then none
    else
      let accRev' := c :: accRev
      match rest.dropWhile isJsSpace with
      | '<' :: tail =>
        match checkTail tail with
        | some g2 => some (accRev'.reverse, g2)
        | none => goSplit accRev' rest
      | _ => goSplit accRev' rest

/-- `String.match` against `/^(.+?)\s*<(.+?)>$/`, returning the two groups. -/
def matchNameEmail (s : String) : Option (String × String) :=
  (goSplit [] s.data).map fun p => (String.mk p.1, String.mk p.2)

/-- Split the run after `@` at the last `.` that is followed by a `\w`
character (the backtracking of the greedy `[\w\.-]+` before `\.\w+`);
returns the domain part before the dot and the greedy `\w+` after it. -/
def domainGo : List Char → List Char → Option (List Char × List Char) →
    Option (List Char × List Char)
  | _, [], best => best
  | revPre, c :: rest, best =>
    let best' :=
      if c = '.' ∧ revPre ≠ [] ∧ (rest.takeWhile isWordChar) ≠ [] then
        some (revPre.reverse, rest.takeWhile isWordChar)
      else best
    domainGo (c :: revPre) rest best'

/-- Attempt to match `/[\w\.-]+@[\w\.-]+\.\w+/` anchored at the start of
`cs`: a maximal `[\w\.-]+` run, a literal `@`, then the domain split. -/
def emailAt (cs : List Char) : Option (List Char) :=
  if cs.takeWhile isTokClass = [] then none
  else
    match cs.drop (cs.takeWhile isTokClass).length with
    | '@' :: rest =>
      match domainGo [] (rest.takeWhile isTokClass) none with
      | some (b, c) =>
        some (cs.takeWhile isTokClass ++ '@' :: (b ++ '.' :: c))
      | none => none
    | _ => none

/-- Leftmost match of `/[\w\.-]+@[\w\.-]+\.\w+/` in `cs`. -/
def findEmailGo : List Char → Option (List Char)
  | [] => none
  | c :: rest =>
    match emailAt (c :: rest) with
    | some m => some m
    | none => findEmailGo rest

/-- `String.match` against the bare-email regexp, returning the whole match. -/
def findEmailTokenStr (s : String) : Option String :=
  (findEmailGo s.data).map String.mk

/-- JS `String.prototype.trim` over the character list (strips the JS
whitespace set from both ends). -/
def jsTrim (cs : List Char) : List Char :=
  ((cs.dropWhile isJsSpace).reverse.dropWhile isJsSpace).reverse

/-- JS `.replace(/"/g, '')`: remove every double quote. -/
def removeQuotes (cs : List Char) : List Char :=
  cs.filter (fun c => c ≠ '"')

/-- The sender-extraction block: returns `(senderEmail, senderName)`.
`email.from` truthiness is non-emptiness of the string;
`.trim().replace(/"/g,'')` on the name group, `.trim()` on the email
group. -/
def parseSenderInfo (fromStr : String) : String × Option String :=
  if fromStr = "" then (fromStr, none)
  else
    match goSplit [] fromStr.data with
    | some (name, email) =>
      (String.mk (jsTrim email), some (String.mk (removeQuotes (jsTrim name))))
    | none =>
      match findEmailGo fromStr.data with
      | some tok => (String.mk tok, none)
      | none => (fromStr, none)

/-- Numeric reading of a Gmail historyId (the glossary treats historyIds as
an opaque monotonically increasing counter rendered in decimal); used only to
state which of two cursors is older. -/
def historyIdNat (s : String) : Option Nat :=
  if s.data ≠ [] ∧ s.data.all Char.isDigit then
    some (s.data.foldl (fun n c => n * 10 + (c.toNat - '0'.toNat)) 0)
  else none

/-! ## Data model

`EmailData` is the parsed provider message (`gmailService.ts`), `EmailInsertData`
the row payload handed to `EmailDbService.insertEmail`, and `StoredEmail` the
persisted `emails` row (`EmailRecord` in `emailDbService.ts`, restricted to the
columns the service actually writes and reads). -/

/-- `EmailData` from `gmailService.ts` (`from` is a Lean keyword, hence
`fromAddr`). -/
structure EmailData where
  id : String
  threadId : String
  subject : String
  fromAddr : String
  toAddr : String
  date : String
  snippet : String
  body : String
  bodyHtml : String
  bodyText : String
  isRead : Bool
  hasAttachments : Bool
  labels : List String
  deriving Repr, DecidableEq

/-- `EmailSummary` from `aiService.ts`; `confidence` is kept as a rational. -/
structure EmailSummary where
  summary : String
  keyPoints : List String
  sentiment : String
  category : String
  actionRequired : Bool
  confidence : ℚ
  deriving Repr, DecidableEq

/-- `EmailInsertData` from `emailDbService.ts`. -/
structure EmailInsertData where
  gmail_message_id : String
  gmail_thread_id : String
  subject : String
  sender_email : String
  sender_name : Option String
  recipient_email : String
  body_text : String
  body_html : String
  ai_summary : Option EmailSummary
  has_attachments : Bool
  labels : List String
  is_read : Bool
  received_at : String
  deriving Repr, DecidableEq

/-- A persisted `emails` row: the fields `insertEmail` writes. -/
structure StoredEmail where
  user_id : String
  gmail_account_id : String
  gmail_message_id : String
  gmail_thread_id : String
  subject : String
  sender_email : String
  sender_name : Option String
  recipient_email : String
  body_text : String
  body_html : String
  ai_summary : Option String
  ai_category_confidence : Option ℚ
  is_archived : Bool
  received_at : String
  processed_at : String
  deriving Repr, DecidableEq

/-- A `users` row, restricted to the columns read by the webhook handler. -/
structure UserRow where
  id : String
  email : String
  access_token : Option String
  refresh_token : Option String
  watch_history_id : Option String
  token_expires_at : Option String
  deriving Repr, DecidableEq

/-- A `gmail_accounts` row (created by
`EmailDbService.getOrCreateGmailAccount`). -/
structure GmailAccount where
  id : String
  user_id : String
  email : String
  deriving Repr, DecidableEq

/-- The persistence collaborator's visible state.  Row ids that the real
database generates are modelled by the counter `nextId`. -/
structure Db where
  users : List UserRow
  emails : List StoredEmail
  accounts : List GmailAccount
  nextId : Nat
  deriving Repr, DecidableEq

/-- JS truthiness of an optional string column: present and non-empty. -/
def truthyOpt (o : Option String) : Bool :=
  match o with
  | some s => s ≠ ""
  | none => false

/-- The row, if any, with the given user id and Gmail message id (the
`.eq('user_id', ...).eq('gmail_message_id', ...)` select). -/
def dbFindEmail (db : Db) (uid mid : String) : Option StoredEmail :=
  db.emails.find? fun r => r.user_id = uid ∧ r.gmail_message_id = mid

/-- Whether a row with the given keys exists. -/
def dbHasEmail (db : Db) (uid mid : String) : Bool :=
  (dbFindEmail db uid mid).isSome

/-! ## EmailDbService -/

/-- `EmailDbService.emailExists`.  `readError` is the error, if any, returned
by the Supabase `.single()` call (`PGRST116` is its no-rows code).  The
source throws on any other error code and the surrounding `catch` then
returns `false`:

```js
if (error && error.code !== 'PGRST116') { throw error; }
return !!data;
} catch (error) { ...; return false; }
``` -/
def emailExists (db : Db) (readError : Option String) (uid mid : String) : Bool :=
  match readError with
  | some code => if code = "PGRST116" then dbHasEmail db uid mid else false
  | none => dbHasEmail db uid mid

/-- `EmailDbService.getOrCreateGmailAccount`: find the account row for
`(userId, email)` or insert a fresh one.  Returns the updated store and the
account id. -/
def getOrCreateGmailAccount (db : Db) (uid email : String) : Db × String :=
  match db.accounts.find? (fun a => a.user_id = uid ∧ a.email = email) with
  | some a => (db, a.id)
  | none =>
    let newId := toString db.nextId
    (⟨db.users, db.emails,
      db.accounts ++ [⟨newId, uid, email⟩], db.nextId + 1⟩, newId)

/-- The row `EmailDbService.insertEmail` builds: note the unconditional
`is_archived: true` ("We archive emails after importing"). -/
def buildEmailRecord (uid acctId : String) (d : EmailInsertData) (now : String) :
    StoredEmail :=
  { user_id := uid
    gmail_account_id := acctId
    gmail_message_id := d.gmail_message_id
    gmail_thread_id := d.gmail_thread_id
    subject := d.subject
    sender_email := d.sender_email
    sender_name := d.sender_name
    recipient_email := d.recipient_email
    body_text := d.body_text
    body_html := d.body_html
    ai_summary := d.ai_summary.map EmailSummary.summary
    ai_category_confidence := d.ai_summary.map EmailSummary.confidence
    is_archived := true
    received_at := d.received_at
    processed_at := now }

/-- `EmailDbService.insertEmail`.  The outcome mirrors the source:
`.ok none` when the pre-check finds the row (returns `null`), `.error ()`
when the database insert itself errors (the function rethrows), and
`.ok (some id)` on success.  `innerReadError` feeds the `emailExists`
pre-check, `insertError` injects a failing insert.  On an insert error the
account row created by `getOrCreateGmailAccount` is kept, as in the source. -/
def insertEmail (db : Db) (uid : String) (d : EmailInsertData)
    (innerReadError : Option String) (insertError : Bool) (now : String) :
    Db × Except Unit (Option String) :=
  if emailExists db innerReadError uid d.gmail_message_id then
    (db, .ok none)
  else
    let g := getOrCreateGmailAccount db uid d.recipient_email
    if insertError then (g.1, .error ())
    else
      (⟨g.1.users,
        g.1.emails ++ [buildEmailRecord uid g.2 d now],
        g.1.accounts, g.1.nextId + 1⟩, .ok (some (toString g.1.nextId)))

/-! ## AIService -/

/-- `EmailSummaryRequest` from `aiService.ts`. -/
structure EmailSummaryRequest where
  subject : String
  fromAddr : String
  toAddr : String
  body : String
  snippet : String
  deriving Repr, DecidableEq

/-- The JSON object parsed from the model's reply, with the fields the
validation step inspects (a missing or falsy field is `none`). -/
structure ParsedSummary where
  summary : Option String
  keyPoints : Option (List String)
  sentiment : Option String
  category : Option String
  actionRequired : Bool
  confidence : Option ℚ
  deriving Repr, DecidableEq

/-- Outcome of the OpenAI chat-completion call. -/
inductive AiOutcome where
  /-- Reply received and `JSON.parse` succeeded. -/
  | ok (p : ParsedSummary)
  /-- Reply had no content (`throw new Error('No response from OpenAI')`). -/
  | noResponse
  /-- `JSON.parse(response)` threw. -/
  | badJson
  /-- The API call itself threw (network, quota, timeout). -/
  | apiError
  deriving Repr, DecidableEq

/-- JS `x || d` for a parsed optional string (empty string is falsy). -/
def jsOrStr (o : Option String) (d : String) : String :=
  match o with
  | some s => if s = "" then d else s
  | none => d

/-- JS `x || d` for a parsed optional number (`0` is falsy). -/
def jsOrRat (o : Option ℚ) (d : ℚ) : ℚ :=
  match o with
  | some x => if x = 0 then d else x
  | none => d

/-- The fallback summary built in `summarizeEmail`'s `catch` block. -/
def fallbackSummary (req : EmailSummaryRequest) : EmailSummary :=
  { summary := "Email from " ++ req.fromAddr ++ " about \"" ++ req.subject ++
      "\". " ++ req.snippet
    keyPoints := []
    sentiment := "neutral"
    category := "General"
    actionRequired := false
    confidence := 1 / 10 }

/-- `AIService.summarizeEmail`: on a successful call the parsed fields are
validated and defaulted; on ANY failure the `catch` returns the fallback
summary — the function never throws. -/
def summarizeEmailModel (req : EmailSummaryRequest) (out : AiOutcome) :
    EmailSummary :=
  match out with
  | .ok p =>
    { summary := jsOrStr p.summary "Unable to generate summary"
      keyPoints := p.keyPoints.getD []
      sentiment :=
        match p.sentiment with
        | some s =>
          if s = "positive" ∨ s = "neutral" ∨ s = "negative" then s
          else "neutral"
        | none => "neutral"
      category := jsOrStr p.category "General"
      actionRequired := p.actionRequired
      confidence := min (max (jsOrRat p.confidence (1 / 2)) 0) 1 }
  | _ => fallbackSummary req

/-! ## The Gmail webhook handler `router.post('/gmail')`

The handler is embedded as a function of the store, the request body shape and
a `RunEnv` of collaborator outcomes.  Logging and the Pub/Sub JWT verification
are omitted: `verifyPubSubRequest`'s result is logged but the handler proceeds
either way, so it has no effect on behaviour. -/

/-- The decoded Gmail notification `{ emailAddress, historyId }`; a field
absent from the JSON is `none`. -/
structure Notification where
  emailAddress : Option String
  historyId : Option String
  deriving Repr, DecidableEq

/-- The shape of the request body after the handler's parse attempts:
an empty body (with or without a `content-length` header), a Pub/Sub
`challenge` verification, a body carrying the fields directly (unwrapped
payload), or a wrapped `{ message: { data } }` whose base64 payload either
parses to a notification or fails `JSON.parse`. -/
inductive Body where
  | empty (hasContentLength : Bool)
  | challenge
  | direct (n : Notification)
  | wrapped (d : Except Unit Notification)
  deriving Repr

/-- Fault injection for one iteration of the import loop: the error returned
to the loop's `emailExists` check, the error returned to `insertEmail`'s own
pre-check, and whether the database insert throws. -/
structure EmailFaults where
  outerReadError : Option String
  innerReadError : Option String
  insertError : Bool
  deriving Repr, DecidableEq

/-- A fault-free iteration. -/
def noFaults : EmailFaults := ⟨none, none, false⟩

/-- Outcome of one `gmail.users.messages.modify` call in `archiveEmails`. -/
inductive ModifyOutcome where
  | ok
  | err401
  | errOther
  deriving Repr, DecidableEq

/-- Collaborator outcomes for one webhook invocation. -/
structure RunEnv where
  /-- The user `.single()` select returned an error. -/
  userLookupError : Bool
  /-- Result of `gmailService.fetchEmailsSinceHistoryId` (`.error` = it threw). -/
  fetchResult : Except Unit (List EmailData)
  /-- Per-message faults, in message order (missing entries are fault-free). -/
  faults : List EmailFaults
  /-- `gmailService.archiveEmails` threw as a whole. -/
  archiveThrows : Bool
  /-- Per-id outcome of the archive `modify` calls. -/
  archiveOutcome : String → ModifyOutcome
  /-- The `watch_history_id` update returned an error (logged, not thrown). -/
  cursorWriteError : Bool
  /-- `new Date(s)` parsing: `none` models an invalid date. -/
  parseDate : String → Option String
  /-- The current time (`new Date().toISOString()`). -/
  now : String

/-- `parseEmailDate`: the parsed date, or the current time if invalid. -/
def parseEmailDate (env : RunEnv) (ds : String) : String :=
  (env.parseDate ds).getD env.now

/-- The `EmailInsertData` assembled in the webhook import loop (field by field
from `router.post('/gmail')`; `ai_summary: undefined`). -/
def buildInsertData (env : RunEnv) (email : EmailData) : EmailInsertData :=
  let sender := parseSenderInfo email.fromAddr
  { gmail_message_id := email.id
    gmail_thread_id := email.threadId
    subject := if email.subject = "" then "(No Subject)" else email.subject
    sender_email := sender.1
    sender_name := sender.2
    recipient_email := email.toAddr
    body_text := if email.bodyText = "" then email.body else email.bodyText
    body_html := email.bodyHtml
    ai_summary := none
    has_attachments := email.hasAttachments
    labels := email.labels
    is_read := email.isRead
    received_at := parseEmailDate env email.date }

/-- Running state of the import loop. -/
structure LoopState where
  db : Db
  imported : Nat
  skipped : Nat
  failed : Nat
  importedIds : List String
  deriving Repr, DecidableEq

/-- Book-keeping for one `insertEmail` outcome: a thrown insert is caught by
the per-message `catch` and counted as `failed`, a `null` return as `skipped`,
an id as `imported` (tracked for archiving). -/
def applyInsert (st : LoopState) (eid : String)
    (ins : Db × Except Unit (Option String)) : LoopState :=
  match ins.2 with
  | .error _ => { st with db := ins.1, failed := st.failed + 1 }
  | .ok none => { st with db := ins.1, skipped := st.skipped + 1 }
  | .ok (some _) =>
    { st with
      db := ins.1
      imported := st.imported + 1
      importedIds := st.importedIds ++ [eid] }

/-- One iteration of the webhook import loop: dedup check, sender
normalization, insert. -/
def processOne (env : RunEnv) (uid : String) (st : LoopState)
    (email : EmailData) (f : EmailFaults) : LoopState :=
  if emailExists st.db f.outerReadError uid email.id then
    { st with skipped := st.skipped + 1 }
  else
    applyInsert st email.id
      (insertEmail st.db uid (buildInsertData env email)
        f.innerReadError f.insertError env.now)

/-- Pair each fetched message with its injected faults (fault-free when the
schedule runs out). -/
def zipFaults : List EmailData → List EmailFaults → List (EmailData × EmailFaults)
  | [], _ => []
  | e :: es, [] => (e, noFaults) :: zipFaults es []
  | e :: es, f :: fs => (e, f) :: zipFaults es fs

/-- The whole import loop. -/
def processEmails (env : RunEnv) (uid : String) :
    LoopState → List (EmailData × EmailFaults) → LoopState
  | st, [] => st
  | st, (e, f) :: rest => processEmails env uid (processOne env uid st e f) rest

/-- `GmailService.archiveEmails` as seen from the webhook: each id gets one
`modify` call; a failing call (of either kind) puts the id in `failed` — there
is no refresh or retry here.  Batching only affects pacing, not outcomes. -/
def archivePartition (outcome : String → ModifyOutcome) (ids : List String) :
    List String × List String :=
  match ids with
  | [] => ([], [])
  | i :: rest =>
    let p := archivePartition outcome rest
    match outcome i with
    | .ok => (i :: p.1, p.2)
    | _ => (p.1, i :: p.2)

/-- The archive step of the webhook: skipped when nothing was imported; a
throwing `archiveEmails` marks every id failed; otherwise the per-id
partition counts.  Returns `(archived, archiveFailed)`. -/
def runArchive (env : RunEnv) (ids : List String) : Nat × Nat :=
  if ids = [] then (0, 0)
  else if env.archiveThrows then (0, ids.length)
  else
    let p := archivePartition env.archiveOutcome ids
    (p.1.length, p.2.length)

/-- Overwrite the stored cursor: the
`update({ watch_history_id: historyId }).eq('id', user.id)` call. -/
def writeCursor (db : Db) (uid hi : String) : Db :=
  ⟨db.users.map fun u =>
      if u.id = uid then { u with watch_history_id := some hi } else u,
    db.emails, db.accounts, db.nextId⟩

/-- The stored cursor of a user. -/
def cursorOf (db : Db) (uid : String) : Option String :=
  (db.users.find? (fun u => u.id = uid)).bind UserRow.watch_history_id

/-- The user `.single()` select by email address. -/
def findUser (db : Db) (ea : String) : Option UserRow :=
  db.users.find? fun u => u.email = ea

/-- The handler's observable response: HTTP status, the `success` flag,
the per-run stats, and how many times the cursor update was issued. -/
structure WebhookResult where
  status : Nat
  success : Bool
  imported : Nat
  skipped : Nat
  failed : Nat
  archived : Nat
  archiveFailed : Nat
  cursorWrites : Nat
  deriving Repr, DecidableEq

/-- A `200` acknowledgment carrying no stats. -/
def ack200 (ok : Bool) : WebhookResult := ⟨200, ok, 0, 0, 0, 0, 0, 0⟩

/-- A `400` rejection. -/
def reject400 : WebhookResult := ⟨400, false, 0, 0, 0, 0, 0, 0⟩

/-- The pipeline from "notification fields in hand" onwards: user lookup and
token checks (`200` with `success:false` on failure), history fetch (`200`
with `success:false` if it throws), the empty-result shortcut (cursor still
updated), the import loop, archiving, and the final cursor update. -/
def runPipeline (env : RunEnv) (db : Db) (ea hi : String) : WebhookResult × Db :=
  match (if env.userLookupError then none else findUser db ea) with
  | none => (ack200 false, db)
  | some user =>
    if ¬ truthyOpt user.access_token then (ack200 false, db)
    else if ¬ truthyOpt user.refresh_token then (ack200 false, db)
    else
      match env.fetchResult with
      | .error _ => (ack200 false, db)
      | .ok [] =>
        let db' := if env.cursorWriteError then db else writeCursor db user.id hi
        (⟨200, true, 0, 0, 0, 0, 0, 1⟩, db')
      | .ok (e :: es) =>
        let st := processEmails env user.id ⟨db, 0, 0, 0, []⟩
          (zipFaults (e :: es) env.faults)
        let arch := runArchive env st.importedIds
        let db' :=
          if env.cursorWriteError then st.db else writeCursor st.db user.id hi
        (⟨200, true, st.imported, st.skipped, st.failed, arch.1, arch.2, 1⟩, db')

/-- The full handler: envelope classification (the only `400` responses),
then `runPipeline`.  The unwrapped body is used only when both fields are
truthy, matching `parsedBody.emailAddress && parsedBody.historyId`; a decoded
wrapped payload must then pass `!emailAddress || !historyId`. -/
def handleGmailWebhook (env : RunEnv) (db : Db) (body : Body) :
    WebhookResult × Db :=
  match body with
  | .empty hasLen => if hasLen then (ack200 true, db) else (reject400, db)
  | .challenge => (ack200 true, db)
  | .direct n =>
    if truthyOpt n.emailAddress ∧ truthyOpt n.historyId then
      runPipeline env db (n.emailAddress.getD "") (n.historyId.getD "")
    else (reject400, db)
  | .wrapped (.error _) => (reject400, db)
  | .wrapped (.ok n) =>
    if truthyOpt n.emailAddress ∧ truthyOpt n.historyId then
      runPipeline env db (n.emailAddress.getD "") (n.historyId.getD "")
    else (reject400, db)

/-! ## 401 handling in `GmailService`

`fetchEmailsSinceHistoryId` is the only operation with a 401-triggered
refresh-and-retry: its outer `catch` inspects `error.status === 401`, clears
the credentials, refreshes, and re-issues the history call once; any failure
of the retry (including a second 401) is rethrown as the generic
`'Failed to fetch emails from Gmail history'`.  `archiveEmails` has no such
logic: each id gets one `modify` call and a failing id is only recorded in
`failed`.  Message extraction and inbox filtering are abstracted into the
`ok` payloads, since only the control flow is at stake here. -/

/-- Outcome of one `gmail.users.history.list` call (with the subsequent
message fetches folded into the payload). -/
inductive FetchOutcome where
  | ok (es : List EmailData)
  | err401
  | errOther
  deriving Repr, DecidableEq

/-- Observable run of `fetchEmailsSinceHistoryId`: the result, the number of
401-triggered refresh(-attempt)s, and the number of history calls issued. -/
structure FetchRun where
  result : Except String (List EmailData)
  refreshRetriesOn401 : Nat
  historyCalls : Nat
  deriving Repr

/-- `GmailService.fetchEmailsSinceHistoryId`: `first` is the outcome of the
initial history call, `second` of the retry; `hasRefreshTok` is whether the
client still holds a refresh token when the 401 is caught, `refreshOk`
whether the forced refresh succeeds.  A missing refresh token or a failed
refresh, like a failed retry, surfaces as the generic error thrown by the
retry `catch`. -/
def fetchSinceModel (hasRefreshTok refreshOk : Bool)
    (first second : FetchOutcome) : FetchRun :=
  match first with
  | .ok es => ⟨.ok es, 0, 1⟩
  | .errOther => ⟨.error "Failed to fetch emails from Gmail history", 0, 1⟩
  | .err401 =>
    if hasRefreshTok then
      if refreshOk then
        match second with
        | .ok es => ⟨.ok es, 1, 2⟩
        | _ => ⟨.error "Failed to fetch emails from Gmail history", 1, 2⟩
      else ⟨.error "Failed to fetch emails from Gmail history", 1, 1⟩
    else ⟨.error "Failed to fetch emails from Gmail history", 0, 1⟩

/-- Observable run of `archiveEmails`. -/
structure ArchiveRun where
  result : Except String (List String × List String)
  refreshRetriesOn401 : Nat
  modifyCalls : Nat
  deriving Repr

/-- `GmailService.archiveEmails`: after the initial `ensureValidToken`
(whose failure is rethrown as `'Failed to archive emails in Gmail'`), each id
gets exactly one `modify` call; an error — 401 included — lands the id in
`failed` with no refresh and no retry. -/
def archiveEmailsModel (tokenFail : Bool) (outcome : String → ModifyOutcome)
    (ids : List String) : ArchiveRun :=
  if tokenFail then ⟨.error "Failed to archive emails in Gmail", 0, 0⟩
  else ⟨.ok (archivePartition outcome ids), 0, ids.length⟩

/-! ## The enrichment write-back -/

/-- Modelled from the spec: `EmailDbService.updateEmailAiSummary` is invoked
by the `/ai-summarize` worker route and the webhook's Stage-2 task, but its
definition is not among the source files.  Spec §6 gives the storage
operation `updateSummary(userId, providerMessageId, summary) -> success`, and
§4.6 makes the write conditional: "update only if still null".  `writeFault`
injects a failing write (returns `false`, store unchanged). -/
def updateEmailAiSummary (db : Db) (uid mid : String) (s : EmailSummary)
    (writeFault : Bool) : Db × Bool :=
  if writeFault then (db, false)
  else
    (⟨db.users,
      db.emails.map fun r =>
        if r.user_id = uid ∧ r.gmail_message_id = mid ∧ r.ai_summary = none then
          { r with
            ai_summary := some s.summary
            ai_category_confidence := some s.confidence }
        else r,
      db.accounts, db.nextId⟩, true)

/-- The enrichment unit of work shared by the `/ai-summarize` worker route
and the webhook's fire-and-forget Stage-2 task: call
`aiService.summarizeEmail` (which never throws — its `catch` returns the
fallback summary) and write the result back.  Returns the store and the
write-back's success flag. -/
def aiSummarizeTask (db : Db) (uid mid : String) (req : EmailSummaryRequest)
    (out : AiOutcome) (writeFault : Bool) : Db × Bool :=
  updateEmailAiSummary db uid mid (summarizeEmailModel req out) writeFault

/-! ## Spec-side predicate and concrete sample data -/

/-- Following the spec's words (acknowledgment contract): "only a
structural/parse failure of the notification envelope itself is treated as a
true rejection".  A body is structurally rejectable when it is empty without
a content-length, parses to neither payload format, fails the base64/JSON
decode, or lacks a (truthy) `emailAddress` or `historyId`. -/
def specEnvelopeRejected : Body → Bool
  | .empty hasLen => ¬ hasLen
  | .challenge => false
  | .direct n => ¬ (truthyOpt n.emailAddress ∧ truthyOpt n.historyId)
  | .wrapped (.error _) => true
  | .wrapped (.ok n) => ¬ (truthyOpt n.emailAddress ∧ truthyOpt n.historyId)

/-- A sample parsed message with the given Gmail id. -/
def sampleEmail (i : String) : EmailData :=
  ⟨i, "t1", "Hello", "Jane Doe <jane@x.com>", "me@x.com",
    "Mon, 01 Jan 2024 00:00:00 +0000", "snip", "body text", "<p>b</p>",
    "body text", false, false, ["INBOX"]⟩

/-- A sample user with tokens and stored cursor `"100"`. -/
def sampleUser : UserRow :=
  ⟨"u1", "a@x.com", some "at", some "rt", some "100", none⟩

/-- A store holding just `sampleUser`. -/
def sampleDb : Db := ⟨[sampleUser], [], [], 0⟩

/-- A fault-free environment with the given fetch outcome. -/
def mkEnv (fetch : Except Unit (List EmailData)) : RunEnv :=
  ⟨false, fetch, [], false, fun _ => ModifyOutcome.ok, false, fun _ => none,
    "2024-01-01T00:00:00.000Z"⟩

/-- A persisted message `"m2"` for user `"u1"` with no summary yet. -/
def sampleStored : StoredEmail :=
  ⟨"u1", "g1", "m2", "t2", "Hi", "boss@x.com", none, "me@x.com", "b", "",
    none, none, true, "2024-01-01", "2024-01-01"⟩

/-- A store holding `sampleUser` and the unsummarized `sampleStored`. -/
def sampleDbWithEmail : Db := ⟨[sampleUser], [sampleStored], [], 1⟩

/-- The summarizer request for `sampleStored`. -/
def sampleReq : EmailSummaryRequest :=
  ⟨"Hi", "boss@x.com", "me@x.com", "b", "snip"⟩

/-! ## Structural lemmas about the store and the import loop -/

theorem dbHasEmail_iff (db : Db) (uid mid : String) :
    dbHasEmail db uid mid = true ↔
      ∃ r ∈ db.emails, r.user_id = uid ∧ r.gmail_message_id = mid := by
  unfold dbHasEmail dbFindEmail
  rw [List.find?_isSome]
  simp

theorem emailExists_none (db : Db) (uid mid : String) :
    emailExists db none uid mid = dbHasEmail db uid mid := rfl

theorem dbHasEmail_append (db : Db) (l : List StoredEmail) (uid mid : String) :
    dbHasEmail ⟨db.users, db.emails ++ l, db.accounts, db.nextId⟩ uid mid = true ↔
      (dbHasEmail db uid mid = true ∨
        ∃ r ∈ l, r.user_id = uid ∧ r.gmail_message_id = mid) := by
  rw [dbHasEmail_iff, dbHasEmail_iff]
  constructor
  · rintro ⟨r, hr, hp⟩
    rcases List.mem_append.mp hr with h | h
    · exact Or.inl ⟨r, h, hp⟩
    · exact Or.inr ⟨r, h, hp⟩
  · rintro (⟨r, hr, hp⟩ | ⟨r, hr, hp⟩)
    · exact ⟨r, List.mem_append.mpr (Or.inl hr), hp⟩
    · exact ⟨r, List.mem_append.mpr (Or.inr hr), hp⟩

theorem getOrCreate_users (db : Db) (uid em : String) :
    (getOrCreateGmailAccount db uid em).1.users = db.users := by
  unfold getOrCreateGmailAccount
  split <;> rfl

theorem getOrCreate_emails (db : Db) (uid em : String) :
    (getOrCreateGmailAccount db uid em).1.emails = db.emails := by
  unfold getOrCreateGmailAccount
  split <;> rfl

theorem buildEmailRecord_is_archived (uid acctId : String)
    (d : EmailInsertData) (now : String) :
    (buildEmailRecord uid acctId d now).is_archived = true := rfl

theorem insertEmail_users (db : Db) (uid : String) (d : EmailInsertData)
    (ire : Option String) (ie : Bool) (now : String) :
    (insertEmail db uid d ire ie now).1.users = db.users := by
  unfold insertEmail
  split
  · rfl
  · split
    · exact getOrCreate_users db uid d.recipient_email
    · show (getOrCreateGmailAccount db uid d.recipient_email).1.users = db.users
      exact getOrCreate_users db uid d.recipient_email

/-- What `insertEmail` does to the `emails` table: it appends a (possibly
empty) list of rows, every appended row is the archived record for the given
message, and nothing is appended when the insert throws. -/
theorem insertEmail_emails_spec (db : Db) (uid : String) (d : EmailInsertData)
    (ire : Option String) (ie : Bool) (now : String) :
    ∃ l, (insertEmail db uid d ire ie now).1.emails = db.emails ++ l ∧
      (∀ r ∈ l, r.is_archived = true ∧ r.gmail_message_id = d.gmail_message_id ∧
        r.user_id = uid) ∧
      (ie = true → l = []) := by
  unfold insertEmail
  split
  · exact ⟨[], by simp, by simp, fun _ => rfl⟩
  · split
    case isTrue hie =>
      refine ⟨[], ?_, by simp, fun _ => rfl⟩
      simp [getOrCreate_emails]
    case isFalse hie =>
      refine ⟨[buildEmailRecord uid
        (getOrCreateGmailAccount db uid d.recipient_email).2 d now], ?_, ?_, ?_⟩
      · show (getOrCreateGmailAccount db uid d.recipient_email).1.emails ++ _ = _
        rw [getOrCreate_emails]
      · intro r hr
        rw [List.mem_singleton] at hr
        subst hr
        exact ⟨rfl, rfl, rfl⟩
      · intro h
        exact absurd h hie

/-- A successful insert (pre-check negative, no thrown error) makes the row
present. -/
theorem insertEmail_success_has (db : Db) (uid : String) (d : EmailInsertData)
    (ire : Option String) (now : String)
    (h : emailExists db ire uid d.gmail_message_id = false) :
    dbHasEmail (insertEmail db uid d ire false now).1 uid d.gmail_message_id
      = true := by
  unfold insertEmail
  rw [h]
  simp only [Bool.false_eq_true, if_false]
  have hrec : dbHasEmail
      ⟨(getOrCreateGmailAccount db uid d.recipient_email).1.users,
        (getOrCreateGmailAccount db uid d.recipient_email).1.emails ++
          [buildEmailRecord uid
            (getOrCreateGmailAccount db uid d.recipient_email).2 d now],
        (getOrCreateGmailAccount db uid d.recipient_email).1.accounts,
        (getOrCreateGmailAccount db uid d.recipient_email).1.nextId + 1⟩
      uid d.gmail_message_id = true := by
    rw [dbHasEmail_iff]
    exact ⟨buildEmailRecord uid
        (getOrCreateGmailAccount db uid d.recipient_email).2 d now,
      List.mem_append.mpr (Or.inr (List.mem_singleton.mpr rfl)), rfl, rfl⟩
  exact hrec

theorem dbHasEmail_congr (db1 db2 : Db) (h : db1.emails = db2.emails)
    (uid mid : String) : dbHasEmail db1 uid mid = dbHasEmail db2 uid mid := by
  unfold dbHasEmail dbFindEmail
  rw [h]

/-- Whatever the outcome, the loop state ends up holding the store
`insertEmail` returned. -/
theorem applyInsert_db (st : LoopState) (eid : String)
    (ins : Db × Except Unit (Option String)) :
    (applyInsert st eid ins).db = ins.1 := by
  unfold applyInsert
  split <;> rfl

theorem processOne_users (env : RunEnv) (uid : String) (st : LoopState)
    (e : EmailData) (f : EmailFaults) :
    (processOne env uid st e f).db.users = st.db.users := by
  unfold processOne
  split
  · rfl
  · rw [applyInsert_db]
    exact insertEmail_users _ _ _ _ _ _

/-- When the loop's dedup check is negative, all three insert outcomes leave
the store `insertEmail` returned. -/
theorem processOne_db_eq (env : RunEnv) (uid : String) (st : LoopState)
    (e : EmailData) (f : EmailFaults)
    (h : emailExists st.db f.outerReadError uid e.id = false) :
    (processOne env uid st e f).db =
      (insertEmail st.db uid (buildInsertData env e)
        f.innerReadError f.insertError env.now).1 := by
  unfold processOne
  rw [h]
  simp only [Bool.false_eq_true, if_false]
  rw [applyInsert_db]

theorem processOne_emails_spec (env : RunEnv) (uid : String) (st : LoopState)
    (e : EmailData) (f : EmailFaults) :
    ∃ l, (processOne env uid st e f).db.emails = st.db.emails ++ l ∧
      (∀ r ∈ l, r.is_archived = true ∧ r.gmail_message_id = e.id ∧
        r.user_id = uid) ∧
      (f.insertError = true → l = []) := by
  unfold processOne
  split
  · exact ⟨[], by simp, by simp, fun _ => rfl⟩
  · obtain ⟨l, hl, hprop, hie⟩ := insertEmail_emails_spec st.db uid
      (buildInsertData env e) f.innerReadError f.insertError env.now
    have harms : ∀ r ∈ l, r.is_archived = true ∧ r.gmail_message_id = e.id ∧
        r.user_id = uid := by
      intro r hr
      obtain ⟨h1, h2, h3⟩ := hprop r hr
      exact ⟨h1, h2, h3⟩
    rw [applyInsert_db]
    exact ⟨l, hl, harms, hie⟩

theorem processEmails_users (env : RunEnv) (uid : String) (st : LoopState)
    (pairs : List (EmailData × EmailFaults)) :
    (processEmails env uid st pairs).db.users = st.db.users := by
  induction pairs generalizing st with
  | nil => rfl
  | cons q rest ih =>
    obtain ⟨e, f⟩ := q
    show (processEmails env uid (processOne env uid st e f) rest).db.users = _
    rw [ih (processOne env uid st e f)]
    exact processOne_users env uid st e f

theorem processEmails_emails_spec (env : RunEnv) (uid : String)
    (st : LoopState) (pairs : List (EmailData × EmailFaults)) :
    ∃ l, (processEmails env uid st pairs).db.emails = st.db.emails ++ l ∧
      ∀ r ∈ l, r.is_archived = true ∧ r.user_id = uid ∧
        ∃ p ∈ pairs, p.1.id = r.gmail_message_id ∧ p.2.insertError = false := by
  induction pairs generalizing st with
  | nil => exact ⟨[], by simp [processEmails], by simp⟩
  | cons q rest ih =>
    obtain ⟨e, f⟩ := q
    obtain ⟨l1, h1, hp1, hie1⟩ := processOne_emails_spec env uid st e f
    obtain ⟨l2, h2, hp2⟩ := ih (processOne env uid st e f)
    refine ⟨l1 ++ l2, ?_, ?_⟩
    · show (processEmails env uid (processOne env uid st e f) rest).db.emails = _
      rw [h2, h1, List.append_assoc]
    · intro r hr
      rcases List.mem_append.mp hr with h | h
      · obtain ⟨ha, hid, hu⟩ := hp1 r h
        have hf : f.insertError = false := by
          cases hfe : f.insertError with
          | false => rfl
          | true => rw [hie1 hfe] at h; cases h
        exact ⟨ha, hu, ⟨(e, f), List.mem_cons_self _ _, hid.symm, hf⟩⟩
      · obtain ⟨ha, hu, p, hp, hrest⟩ := hp2 r h
        exact ⟨ha, hu, p, List.mem_cons_of_mem _ hp, hrest⟩

/-- Rows present before the loop stay present. -/
theorem processEmails_mono (env : RunEnv) (uid : String) (st : LoopState)
    (pairs : List (EmailData × EmailFaults)) (u m : String)
    (h : dbHasEmail st.db u m = true) :
    dbHasEmail (processEmails env uid st pairs).db u m = true := by
  obtain ⟨l, hl, -⟩ := processEmails_emails_spec env uid st pairs
  rw [dbHasEmail_iff] at h ⊢
  rw [hl]
  obtain ⟨r, hr, hp⟩ := h
  exact ⟨r, List.mem_append.mpr (Or.inl hr), hp⟩

/-- After a fault-free run of the loop, every processed message id is
present. -/
theorem processEmails_present (env : RunEnv) (uid : String) (st : LoopState)
    (pairs : List (EmailData × EmailFaults))
    (hall : ∀ p ∈ pairs, p.2 = noFaults) :
    ∀ p ∈ pairs, dbHasEmail (processEmails env uid st pairs).db uid p.1.id
      = true := by
  induction pairs generalizing st with
  | nil => intro p hp; cases hp
  | cons q rest ih =>
    intro p hp
    have hq : q.2 = noFaults := hall q (List.mem_cons_self _ _)
    obtain ⟨e, f⟩ := q
    cases hq
    have hstep : dbHasEmail (processOne env uid st e noFaults).db uid e.id
        = true := by
      unfold processOne
      cases hex : emailExists st.db noFaults.outerReadError uid e.id with
      | true =>
        simp only [if_true]
        exact (emailExists_none st.db uid e.id) ▸ hex
      | false =>
        simp only [Bool.false_eq_true, if_false]
        have hins := insertEmail_success_has st.db uid (buildInsertData env e)
          noFaults.innerReadError env.now hex
        rw [applyInsert_db]
        exact hins
    rcases List.mem_cons.mp hp with hpe | hpr
    · subst hpe
      show dbHasEmail (processEmails env uid
        (processOne env uid st e noFaults) rest).db uid e.id = true
      exact processEmails_mono env uid _ rest uid e.id hstep
    · exact ih (processOne env uid st e noFaults)
        (fun r hr => hall r (List.mem_cons_of_mem _ hr)) p hpr

/-- When every processed message is already present and the dedup reads are
clean, the loop only counts skips. -/
theorem processEmails_all_skipped (env : RunEnv) (uid : String)
    (st : LoopState) (pairs : List (EmailData × EmailFaults))
    (hfe : ∀ p ∈ pairs, p.2.outerReadError = none)
    (hall : ∀ p ∈ pairs, dbHasEmail st.db uid p.1.id = true) :
    processEmails env uid st pairs =
      ⟨st.db, st.imported, st.skipped + pairs.length, st.failed,
        st.importedIds⟩ := by
  induction pairs generalizing st with
  | nil => simp [processEmails]
  | cons q rest ih =>
    obtain ⟨e, f⟩ := q
    have hf : f.outerReadError = none := hfe (e, f) (List.mem_cons_self _ _)
    have he : dbHasEmail st.db uid e.id = true :=
      hall (e, f) (List.mem_cons_self _ _)
    have h1 : processOne env uid st e f = { st with skipped := st.skipped + 1 } := by
      unfold processOne
      rw [hf, emailExists_none, he]
      simp
    show processEmails env uid (processOne env uid st e f) rest = _
    rw [h1, ih { st with skipped := st.skipped + 1 }
      (fun r hr => hfe r (List.mem_cons_of_mem _ hr))
      (fun r hr => hall r (List.mem_cons_of_mem _ hr))]
    have harith : st.skipped + 1 + rest.length = st.skipped + (rest.length + 1) := by
      omega
    simp [harith, List.length_cons]

/-- A message whose every occurrence in the batch has a throwing insert is
dropped: it is absent afterwards if absent before. -/
theorem processEmails_drop (env : RunEnv) (uid : String) (st : LoopState)
    (pairs : List (EmailData × EmailFaults)) (mid : String)
    (hm : ∀ p ∈ pairs, p.1.id = mid → p.2.insertError = true)
    (h0 : dbHasEmail st.db uid mid = false) :
    dbHasEmail (processEmails env uid st pairs).db uid mid = false := by
  cases hres : dbHasEmail (processEmails env uid st pairs).db uid mid with
  | false => rfl
  | true =>
    exfalso
    obtain ⟨l, hl, hp⟩ := processEmails_emails_spec env uid st pairs
    rw [dbHasEmail_iff, hl] at hres
    obtain ⟨r, hr, hu, hmid⟩ := hres
    rcases List.mem_append.mp hr with h | h
    · have : dbHasEmail st.db uid mid = true :=
        (dbHasEmail_iff st.db uid mid).mpr ⟨r, h, hu, hmid⟩
      rw [h0] at this
      cases this
    · obtain ⟨-, -, p, hpmem, hpid, hpie⟩ := hp r h
      have : p.2.insertError = true := hm p hpmem (hpid.trans hmid)
      rw [hpie] at this
      cases this

theorem writeCursor_emails (db : Db) (uid hi : String) :
    (writeCursor db uid hi).emails = db.emails := rfl

theorem dbHasEmail_writeCursor (db : Db) (uid hi u m : String) :
    dbHasEmail (writeCursor db uid hi) u m = dbHasEmail db u m := rfl

/-- List form of `cursorOf_writeCursor`. -/
theorem cursorOf_writeCursor_aux (uid hi : String) :
    ∀ us : List UserRow, (∃ r ∈ us, r.id = uid) →
      (((us.map fun u =>
          if u.id = uid then { u with watch_history_id := some hi } else u).find?
        (fun u => u.id = uid)).bind UserRow.watch_history_id) = some hi := by
  intro us
  induction us with
  | nil => rintro ⟨r, hr, -⟩; cases hr
  | cons v vs ih =>
    rintro ⟨r, hr, hid⟩
    by_cases hv : v.id = uid
    · have hvv : (if v.id = uid then { v with watch_history_id := some hi } else v)
          = { v with watch_history_id := some hi } := by rw [if_pos hv]
      simp only [List.map_cons, hvv]
      rw [List.find?_cons_of_pos]
      · rfl
      · simpa using hv
    · have hvv : (if v.id = uid then { v with watch_history_id := some hi } else v)
          = v := by rw [if_neg hv]
      simp only [List.map_cons, hvv]
      rw [List.find?_cons_of_neg]
      · rcases List.mem_cons.mp hr with hrv | hrv
        · subst hrv; exact absurd hid hv
        · exact ih ⟨r, hrv, hid⟩
      · simpa using hv

/-- Writing the cursor for a user that exists makes their stored cursor the
written value (no matter which row carried the id before). -/
theorem cursorOf_writeCursor (db : Db) (uid hi : String)
    (h : ∃ r ∈ db.users, r.id = uid) :
    cursorOf (writeCursor db uid hi) uid = some hi := by
  unfold cursorOf writeCursor
  exact cursorOf_writeCursor_aux uid hi db.users h

/-- Looking a user up by email commutes with the cursor write. -/
theorem findUser_writeCursor (db : Db) (uid hi ea : String) :
    findUser (writeCursor db uid hi) ea =
      (findUser db ea).map fun u =>
        if u.id = uid then { u with watch_history_id := some hi } else u := by
  unfold findUser writeCursor
  have hpf : ((fun u : UserRow => decide (u.email = ea)) ∘ fun u =>
      if u.id = uid then { u with watch_history_id := some hi } else u) =
      fun u : UserRow => decide (u.email = ea) := by
    funext u
    by_cases h : u.id = uid <;> simp [Function.comp, h]
  rw [List.find?_map, hpf]

theorem writeCursor_idem (db : Db) (uid hi : String) :
    writeCursor (writeCursor db uid hi) uid hi = writeCursor db uid hi := by
  unfold writeCursor
  congr 1
  rw [List.map_map]
  apply List.map_congr_left
  intro a _
  by_cases h : a.id = uid <;> simp [Function.comp, h]

theorem zipFaults_nil (es : List EmailData) :
    zipFaults es [] = es.map fun e => (e, noFaults) := by
  induction es with
  | nil => rfl
  | cons e es ih =>
    show (e, noFaults) :: zipFaults es [] = _
    rw [ih]
    rfl

theorem zipFaults_length (es : List EmailData) (fs : List EmailFaults) :
    (zipFaults es fs).length = es.length := by
  induction es generalizing fs with
  | nil => cases fs <;> rfl
  | cons e es ih =>
    cases fs with
    | nil =>
      show ((e, noFaults) :: zipFaults es []).length = es.length + 1
      rw [List.length_cons, ih]
    | cons f fs =>
      show ((e, f) :: zipFaults es fs).length = es.length + 1
      rw [List.length_cons, ih]

/-- Every webhook pipeline run, whatever happens inside, answers HTTP 200. -/
theorem runPipeline_status (env : RunEnv) (db : Db) (ea hi : String) :
    (runPipeline env db ea hi).1.status = 200 := by
  unfold runPipeline
  split
  · rfl
  · split
    · rfl
    · split
      · rfl
      · split <;> rfl

/-- Shape of a run whose history fetch threw. -/
theorem runPipeline_fetchError (env : RunEnv) (db : Db) (ea hi : String)
    (u : UserRow) (hl : env.userLookupError = false)
    (hu : findUser db ea = some u) (ha : truthyOpt u.access_token = true)
    (hr : truthyOpt u.refresh_token = true)
    (hf : env.fetchResult = .error ()) :
    runPipeline env db ea hi = (ack200 false, db) := by
  unfold runPipeline
  rw [hl]
  simp [hu, ha, hr, hf]

/-- Shape of a run whose fetch returned no messages. -/
theorem runPipeline_emptyFetch (env : RunEnv) (db : Db) (ea hi : String)
    (u : UserRow) (hl : env.userLookupError = false)
    (hu : findUser db ea = some u) (ha : truthyOpt u.access_token = true)
    (hr : truthyOpt u.refresh_token = true)
    (hf : env.fetchResult = .ok []) :
    runPipeline env db ea hi =
      (⟨200, true, 0, 0, 0, 0, 0, 1⟩,
        if env.cursorWriteError then db else writeCursor db u.id hi) := by
  unfold runPipeline
  rw [hl]
  simp [hu, ha, hr, hf]

/-- Shape of a run whose fetch returned messages. -/
theorem runPipeline_consFetch (env : RunEnv) (db : Db) (ea hi : String)
    (u : UserRow) (e : EmailData) (es : List EmailData)
    (hl : env.userLookupError = false) (hu : findUser db ea = some u)
    (ha : truthyOpt u.access_token = true)
    (hr : truthyOpt u.refresh_token = true)
    (hf : env.fetchResult = .ok (e :: es)) :
    runPipeline env db ea hi =
      (⟨200, true,
        (processEmails env u.id ⟨db, 0, 0, 0, []⟩
          (zipFaults (e :: es) env.faults)).imported,
        (processEmails env u.id ⟨db, 0, 0, 0, []⟩
          (zipFaults (e :: es) env.faults)).skipped,
        (processEmails env u.id ⟨db, 0, 0, 0, []⟩
          (zipFaults (e :: es) env.faults)).failed,
        (runArchive env (processEmails env u.id ⟨db, 0, 0, 0, []⟩
          (zipFaults (e :: es) env.faults)).importedIds).1,
        (runArchive env (processEmails env u.id ⟨db, 0, 0, 0, []⟩
          (zipFaults (e :: es) env.faults)).importedIds).2, 1⟩,
        if env.cursorWriteError then
          (processEmails env u.id ⟨db, 0, 0, 0, []⟩
            (zipFaults (e :: es) env.faults)).db
        else writeCursor (processEmails env u.id ⟨db, 0, 0, 0, []⟩
          (zipFaults (e :: es) env.faults)).db u.id hi) := by
  unfold runPipeline
  rw [hl]
  simp [hu, ha, hr, hf]

/-! ## Lemmas about the two header regexes -/

/-- The `Name <email>` pattern cannot match a header with no `<`. -/
theorem goSplit_none_of_no_lt :
    ∀ (cs : List Char), '<' ∉ cs → ∀ accRev, goSplit accRev cs = none := by
  intro cs
  induction cs with
  | nil => intro _ accRev; rfl
  | cons c rest ih =>
    intro hlt accRev
    have hltr : '<' ∉ rest := fun h => hlt (List.mem_cons_of_mem _ h)
    unfold goSplit
    split
    · rfl
    · split
      · rename_i tail heq
        exfalso
        have : '<' ∈ rest.dropWhile isJsSpace := by
          rw [heq]
          exact List.mem_cons_self _ _
        exact hltr ((List.dropWhile_sublist _).subset this)
      · exact ih hltr _

theorem matchNameEmail_none_of_no_lt (s : String) (h : '<' ∉ s.data) :
    matchNameEmail s = none := by
  unfold matchNameEmail
  rw [goSplit_none_of_no_lt s.data h []]
  rfl

/-- The bare-email regexp cannot match at a position with no `@` ahead. -/
theorem emailAt_none_of_no_at (cs : List Char) (h : '@' ∉ cs) :
    emailAt cs = none := by
  unfold emailAt
  split
  · rfl
  · split
    · rename_i rest heq
      exfalso
      have : '@' ∈ cs.drop (cs.takeWhile isTokClass).length := by
        rw [heq]
        exact List.mem_cons_self _ _
      exact h (List.drop_subset _ _ this)
    · rfl

theorem findEmailGo_none_of_no_at (cs : List Char) (h : '@' ∉ cs) :
    findEmailGo cs = none := by
  induction cs with
  | nil => rfl
  | cons c rest ih =>
    unfold findEmailGo
    rw [emailAt_none_of_no_at (c :: rest) h]
    exact ih fun hm => h (List.mem_cons_of_mem _ hm)

/-! ## Claim theorems -/

/-- C5, counterexample: `archiveEmails` is a MailClient operation, yet a 401
on its `modify` call triggers no forced refresh and no retry — the id is
simply recorded as failed after a single call.  The claim's "exactly one
forced token refresh followed by exactly one retry" is false here. -/
theorem C5_counterexample :
    (archiveEmailsModel false (fun _ => ModifyOutcome.err401)
      ["m1"]).refreshRetriesOn401 = 0 ∧
    (archiveEmailsModel false (fun _ => ModifyOutcome.err401)
      ["m1"]).modifyCalls = 1 ∧
    (archiveEmailsModel false (fun _ => ModifyOutcome.err401)
      ["m1"]).result = .ok ([], ["m1"]) ∧
    (archiveEmailsModel false (fun _ => ModifyOutcome.err401)
      ["m1"]).refreshRetriesOn401 ≠ 1 :=
  ⟨rfl, rfl, rfl, by decide⟩

/-- C5, amended: only `fetchEmailsSinceHistoryId` implements the
401-handling — one forced refresh then one retry of the history call, a
second failure (401 included) surfacing as the generic
`'Failed to fetch emails from Gmail history'` error; `archiveEmails` never
refreshes or retries on 401. -/
theorem C5_amended_fetch_only_401_retry :
    (∀ es : List EmailData,
      fetchSinceModel true true FetchOutcome.err401 (FetchOutcome.ok es) =
        ⟨.ok es, 1, 2⟩) ∧
    fetchSinceModel true true FetchOutcome.err401 FetchOutcome.err401 =
      ⟨.error "Failed to fetch emails from Gmail history", 1, 2⟩ ∧
    (∀ (tf : Bool) (oc : String → ModifyOutcome) (ids : List String),
      (archiveEmailsModel tf oc ids).refreshRetriesOn401 = 0) := by
  refine ⟨fun es => rfl, rfl, fun tf oc ids => ?_⟩
  unfold archiveEmailsModel
  cases tf <;> rfl

/-- C6: the webhook answers only 200 or 400, and it answers 400 exactly when
the envelope itself is structurally invalid or unparseable; every internal
failure (user lookup, missing tokens, fetch failure, per-message errors) is
acknowledged with a 200. -/
theorem C6_webhook_ack_contract (env : RunEnv) (db : Db) (body : Body) :
    ((handleGmailWebhook env db body).1.status = 200 ∨
      (handleGmailWebhook env db body).1.status = 400) ∧
    ((handleGmailWebhook env db body).1.status = 400 ↔
      specEnvelopeRejected body = true) := by
  cases body with
  | empty hasLen =>
    cases hasLen <;>
      simp [handleGmailWebhook, specEnvelopeRejected, ack200, reject400]
  | challenge => simp [handleGmailWebhook, specEnvelopeRejected, ack200]
  | direct n =>
    by_cases h : truthyOpt n.emailAddress = true ∧ truthyOpt n.historyId = true
    · have hs := runPipeline_status env db (n.emailAddress.getD "")
        (n.historyId.getD "")
      simp [handleGmailWebhook, h, specEnvelopeRejected, hs]
    · simp [handleGmailWebhook, h, specEnvelopeRejected, reject400]
  | wrapped d =>
    cases d with
    | error u => simp [handleGmailWebhook, specEnvelopeRejected, reject400]
    | ok n =>
      by_cases h : truthyOpt n.emailAddress = true ∧ truthyOpt n.historyId = true
      · have hs := runPipeline_status env db (n.emailAddress.getD "")
          (n.historyId.getD "")
        simp [handleGmailWebhook, h, specEnvelopeRejected, hs]
      · simp [handleGmailWebhook, h, specEnvelopeRejected, reject400]

/-- C9: every row `insertEmail` writes has `is_archived = true` at insertion
time, and hence every row added to the store by a pipeline run is marked
archived, for every archive outcome (the archive step never touches the
store, so its failure cannot unmark anything). -/
theorem C9_is_archived_at_insertion :
    (∀ (uid acctId : String) (d : EmailInsertData) (now : String),
      (buildEmailRecord uid acctId d now).is_archived = true) ∧
    (∀ (env : RunEnv) (db : Db) (ea hi : String) (r : StoredEmail),
      r ∈ ((runPipeline env db ea hi).2).emails →
        r ∈ db.emails ∨ r.is_archived = true) := by
  constructor
  · intro uid acctId d now
    rfl
  · intro env db ea hi r hr
    cases hl : env.userLookupError with
    | true =>
      have hsh : runPipeline env db ea hi = (ack200 false, db) := by
        unfold runPipeline
        rw [hl]
        simp
      rw [hsh] at hr
      exact Or.inl hr
    | false =>
      cases hu : findUser db ea with
      | none =>
        have hsh : runPipeline env db ea hi = (ack200 false, db) := by
          unfold runPipeline
          rw [hl]
          simp [hu]
        rw [hsh] at hr
        exact Or.inl hr
      | some user =>
        cases ha : truthyOpt user.access_token with
        | false =>
          have hsh : runPipeline env db ea hi = (ack200 false, db) := by
            unfold runPipeline
            rw [hl]
            simp [hu, ha]
          rw [hsh] at hr
          exact Or.inl hr
        | true =>
          cases hrt : truthyOpt user.refresh_token with
          | false =>
            have hsh : runPipeline env db ea hi = (ack200 false, db) := by
              unfold runPipeline
              rw [hl]
              simp [hu, ha, hrt]
            rw [hsh] at hr
            exact Or.inl hr
          | true =>
            cases hf : env.fetchResult with
            | error u0 =>
              cases u0
              rw [runPipeline_fetchError env db ea hi user hl hu ha hrt hf]
                at hr
              exact Or.inl hr
            | ok es =>
              cases es with
              | nil =>
                rw [runPipeline_emptyFetch env db ea hi user hl hu ha hrt hf]
                  at hr
                cases hc : env.cursorWriteError with
                | true =>
                  simp only [hc, if_true] at hr
                  exact Or.inl hr
                | false =>
                  simp only [hc, Bool.false_eq_true, if_false] at hr
                  exact Or.inl hr
              | cons e es' =>
                rw [runPipeline_consFetch env db ea hi user e es' hl hu ha
                  hrt hf] at hr
                have hr' : r ∈ (processEmails env user.id ⟨db, 0, 0, 0, []⟩
                    (zipFaults (e :: es') env.faults)).db.emails := by
                  cases hc : env.cursorWriteError with
                  | true => simp only [hc, if_true] at hr; exact hr
                  | false =>
                    simp only [hc, Bool.false_eq_true, if_false] at hr
                    exact hr
                obtain ⟨l, hl2, hp⟩ := processEmails_emails_spec env user.id
                  ⟨db, 0, 0, 0, []⟩ (zipFaults (e :: es') env.faults)
                rw [hl2] at hr'
                rcases List.mem_append.mp hr' with h | h
                · exact Or.inl h
                · exact Or.inr (hp r h).1

/-- C10: a dedup-check read error other than the no-rows code makes
`emailExists` return `false`, and the import loop then treats the message as
absent and attempts the insert — the message is counted imported (insert
succeeded) or failed (insert threw), never skipped. -/
theorem C10_unreadable_dedup_means_absent :
    (∀ (db : Db) (code uid mid : String), code ≠ "PGRST116" →
      emailExists db (some code) uid mid = false) ∧
    (∀ (env : RunEnv) (uid : String) (st : LoopState) (e : EmailData)
      (c c' : String), c ≠ "PGRST116" → c' ≠ "PGRST116" →
      (processOne env uid st e ⟨some c, some c', false⟩).skipped = st.skipped ∧
      (processOne env uid st e ⟨some c, some c', false⟩).imported
        = st.imported + 1 ∧
      (processOne env uid st e ⟨some c, some c', true⟩).failed
        = st.failed + 1) := by
  constructor
  · intro db code uid mid h
    simp [emailExists, h]
  · intro env uid st e c c' hc hc'
    refine ⟨?_, ?_, ?_⟩ <;>
      simp [processOne, insertEmail, applyInsert, emailExists, hc, hc']

/-- C10, witness: a concrete loop step whose two dedup reads fail with a
non-`PGRST116` code inserts the message even though a matching row exists. -/
theorem C10_witness :
    (processOne (mkEnv (.ok [])) "u1" ⟨sampleDbWithEmail, 0, 0, 0, []⟩
      (sampleEmail "m2") ⟨some "PGRST301", some "PGRST301", false⟩).skipped
      = 0 ∧
    (processOne (mkEnv (.ok [])) "u1" ⟨sampleDbWithEmail, 0, 0, 0, []⟩
      (sampleEmail "m2") ⟨some "PGRST301", some "PGRST301", false⟩).imported
      = 1 ∧
    (processOne (mkEnv (.ok [])) "u1" ⟨sampleDbWithEmail, 0, 0, 0, []⟩
      (sampleEmail "m2") ⟨some "PGRST301", some "PGRST301", true⟩).failed
      = 1 := by
  have h := C10_unreadable_dedup_means_absent.2 (mkEnv (.ok [])) "u1"
    ⟨sampleDbWithEmail, 0, 0, 0, []⟩ (sampleEmail "m2") "PGRST301" "PGRST301"
    (by decide) (by decide)
  exact ⟨h.1, h.2.1, h.2.2⟩

/-- C9, witness: one concrete pipeline run over an empty store; the freshly
inserted row is not in the initial store, so the theorem yields its
`is_archived = true` disjunct. -/
theorem C9_witness :
    buildEmailRecord "u1" "0"
        (buildInsertData (mkEnv (.ok [sampleEmail "m1"])) (sampleEmail "m1"))
        "2024-01-01T00:00:00.000Z" ∈ sampleDb.emails ∨
      (buildEmailRecord "u1" "0"
        (buildInsertData (mkEnv (.ok [sampleEmail "m1"])) (sampleEmail "m1"))
        "2024-01-01T00:00:00.000Z").is_archived = true :=
  C9_is_archived_at_insertion.2 (mkEnv (.ok [sampleEmail "m1"])) sampleDb
    "a@x.com" "100" _ (by decide)

/-- C7, counterexample: message `"m2"` is persisted with a null summary; the
summarizer call fails (`apiError`), yet after the enrichment task settles the
row's summary is the deterministic fallback text, not null — `summarizeEmail`
catches every failure and returns a fallback object which is then written
back, contradicting "its summary remains null permanently". -/
theorem C7_counterexample :
    (dbFindEmail (aiSummarizeTask sampleDbWithEmail "u1" "m2" sampleReq
      .apiError false).1 "u1" "m2").isSome = true ∧
    (dbFindEmail (aiSummarizeTask sampleDbWithEmail "u1" "m2" sampleReq
      .apiError false).1 "u1" "m2").map StoredEmail.ai_summary =
      some (some "Email from boss@x.com about \"Hi\". snip") ∧
    (dbFindEmail (aiSummarizeTask sampleDbWithEmail "u1" "m2" sampleReq
      .apiError false).1 "u1" "m2").map StoredEmail.ai_summary ≠
      some none := by
  refine ⟨by decide, by decide, by decide⟩

/-- C7, amended: on any summarizer failure `summarizeEmail` returns the
deterministic fallback summary; the enrichment task then still leaves the
stored message in place, and writes the fallback text as its summary when the
summary was null and the write-back succeeds; the summary stays null only
when the write-back itself fails (store untouched). -/
theorem C7_amended_fallback_written :
    (∀ req : EmailSummaryRequest,
      summarizeEmailModel req .noResponse = fallbackSummary req ∧
      summarizeEmailModel req .badJson = fallbackSummary req ∧
      summarizeEmailModel req .apiError = fallbackSummary req) ∧
    (∀ (db : Db) (uid mid : String) (req : EmailSummaryRequest)
      (out : AiOutcome) (wf : Bool),
      (dbFindEmail (aiSummarizeTask db uid mid req out wf).1 uid mid).isSome =
        (dbFindEmail db uid mid).isSome) ∧
    (∀ (db : Db) (uid mid : String) (req : EmailSummaryRequest)
      (r : StoredEmail), dbFindEmail db uid mid = some r →
      r.ai_summary = none →
      (dbFindEmail (aiSummarizeTask db uid mid req .apiError false).1
        uid mid).map StoredEmail.ai_summary =
        some (some (fallbackSummary req).summary)) ∧
    (∀ (db : Db) (uid mid : String) (req : EmailSummaryRequest)
      (out : AiOutcome), (aiSummarizeTask db uid mid req out true).1 = db) := by
  refine ⟨fun req => ⟨rfl, rfl, rfl⟩, ?_, ?_, fun db uid mid req out => rfl⟩
  · intro db uid mid req out wf
    cases wf with
    | true => rfl
    | false =>
      unfold aiSummarizeTask updateEmailAiSummary
      simp only [Bool.false_eq_true, if_false]
      unfold dbFindEmail
      rw [List.find?_map]
      have hpf : ((fun rr : StoredEmail =>
          decide (rr.user_id = uid ∧ rr.gmail_message_id = mid)) ∘ fun rr =>
            if rr.user_id = uid ∧ rr.gmail_message_id = mid ∧
                rr.ai_summary = none then
              { rr with
                ai_summary := some (summarizeEmailModel req out).summary
                ai_category_confidence :=
                  some (summarizeEmailModel req out).confidence }
            else rr) =
          fun rr : StoredEmail =>
            decide (rr.user_id = uid ∧ rr.gmail_message_id = mid) := by
        funext rr
        by_cases h : rr.user_id = uid ∧ rr.gmail_message_id = mid ∧
            rr.ai_summary = none <;> simp [Function.comp, h]
      rw [hpf]
      cases List.find?
          (fun rr => decide (rr.user_id = uid ∧ rr.gmail_message_id = mid))
          db.emails <;> rfl
  · intro db uid mid req r hfind hnull
    unfold aiSummarizeTask updateEmailAiSummary
    simp only [Bool.false_eq_true, if_false]
    unfold dbFindEmail
    rw [List.find?_map]
    have hpf : ((fun rr : StoredEmail =>
        decide (rr.user_id = uid ∧ rr.gmail_message_id = mid)) ∘ fun rr =>
          if rr.user_id = uid ∧ rr.gmail_message_id = mid ∧
              rr.ai_summary = none then
            { rr with
              ai_summary :=
                some (summarizeEmailModel req .apiError).summary
              ai_category_confidence :=
                some (summarizeEmailModel req .apiError).confidence }
          else rr) =
        fun rr : StoredEmail =>
          decide (rr.user_id = uid ∧ rr.gmail_message_id = mid) := by
      funext rr
      by_cases h : rr.user_id = uid ∧ rr.gmail_message_id = mid ∧
          rr.ai_summary = none <;> simp [Function.comp, h]
    rw [hpf]
    have hfind' : db.emails.find?
        (fun rr => rr.user_id = uid ∧ rr.gmail_message_id = mid) = some r :=
      hfind
    rw [hfind']
    have hcond : r.user_id = uid ∧ r.gmail_message_id = mid ∧
        r.ai_summary = none := by
      have hp := List.find?_some hfind'
      simp only [decide_eq_true_eq] at hp
      exact ⟨hp.1, hp.2, hnull⟩
    simp only [Option.map_some']
    rw [if_pos hcond]
    rfl

/-- C7, amended, witness: the concrete store with unsummarized `"m2"` and a
failing summarizer call. -/
theorem C7_witness :
    (dbFindEmail (aiSummarizeTask sampleDbWithEmail "u1" "m2" sampleReq
      .apiError false).1 "u1" "m2").map StoredEmail.ai_summary =
      some (some (fallbackSummary sampleReq).summary) :=
  C7_amended_fallback_written.2.2.1 sampleDbWithEmail "u1" "m2" sampleReq
    sampleStored (by decide) (by decide)

/-- C8: sender-header normalization.  `"Jane Doe <jane@x.com>"` splits into
name and address; `"broken"` (no angle brackets, no `@`) becomes the sender
email with no name; generally, with no `<` in the header a bare email token
is used when the regex finds one, and the raw header otherwise. -/
theorem C8_sender_normalization :
    parseSenderInfo "Jane Doe <jane@x.com>" = ("jane@x.com", some "Jane Doe") ∧
    parseSenderInfo "broken" = ("broken", none) ∧
    (∀ s t : String, '<' ∉ s.data → findEmailTokenStr s = some t →
      parseSenderInfo s = (t, none)) ∧
    (∀ s : String, '<' ∉ s.data → '@' ∉ s.data →
      parseSenderInfo s = (s, none)) := by
  refine ⟨by decide, by decide, ?_, ?_⟩
  · intro s t hlt hfind
    by_cases hs : s = ""
    · subst hs
      have hnone : findEmailTokenStr "" = none := rfl
      rw [hnone] at hfind
      cases hfind
    · unfold findEmailTokenStr at hfind
      obtain ⟨cs, hcs, ht⟩ := Option.map_eq_some'.mp hfind
      unfold parseSenderInfo
      rw [if_neg hs, goSplit_none_of_no_lt s.data hlt [], hcs]
      subst ht
      rfl
  · intro s hlt hat
    by_cases hs : s = ""
    · subst hs
      rfl
    · unfold parseSenderInfo
      rw [if_neg hs, goSplit_none_of_no_lt s.data hlt [],
        findEmailGo_none_of_no_at s.data hat]

/-- C8, witness: the two general clauses at concrete headers. -/
theorem C8_witness :
    parseSenderInfo "Jane at jane@x.com" = ("jane@x.com", none) ∧
    parseSenderInfo "noatsign" = ("noatsign", none) :=
  ⟨C8_sender_normalization.2.2.1 "Jane at jane@x.com" "jane@x.com"
      (by decide) (by decide),
    C8_sender_normalization.2.2.2 "noatsign" (by decide) (by decide)⟩

/-- C4, counterexample: the history fetch fails (as it does when the
provider rejects the start id); the webhook acknowledges with 200 and
`success:false`, but there is no `listRecentInbox` fallback and the cursor is
NOT re-baselined to the current watermark (`"200"`) — it stays at `"100"`. -/
theorem C4_counterexample :
    (handleGmailWebhook (mkEnv (.error ())) sampleDb
      (Body.direct ⟨some "a@x.com", some "200"⟩)).1.status = 200 ∧
    (handleGmailWebhook (mkEnv (.error ())) sampleDb
      (Body.direct ⟨some "a@x.com", some "200"⟩)).1.success = false ∧
    cursorOf (handleGmailWebhook (mkEnv (.error ())) sampleDb
      (Body.direct ⟨some "a@x.com", some "200"⟩)).2 "u1" = some "100" ∧
    cursorOf (handleGmailWebhook (mkEnv (.error ())) sampleDb
      (Body.direct ⟨some "a@x.com", some "200"⟩)).2 "u1" ≠ some "200" := by
  refine ⟨by decide, by decide, by decide, by decide⟩

/-- C4, amended: when the history fetch throws, the webhook catches the
error and returns a 200 acknowledgment with `success:false`, performing no
fallback fetch and leaving the store — cursor included — unchanged. -/
theorem C4_amended_fetch_failure_acknowledged (env : RunEnv) (db : Db)
    (ea hi : String) (u : UserRow) (hl : env.userLookupError = false)
    (hu : findUser db ea = some u) (ha : truthyOpt u.access_token = true)
    (hr : truthyOpt u.refresh_token = true)
    (hf : env.fetchResult = .error ()) :
    runPipeline env db ea hi = (ack200 false, db) ∧
    (ack200 false).status = 200 ∧ (ack200 false).success = false :=
  ⟨runPipeline_fetchError env db ea hi u hl hu ha hr hf, rfl, rfl⟩

/-- C4, amended, witness. -/
theorem C4_witness :
    runPipeline (mkEnv (.error ())) sampleDb "a@x.com" "200" =
      (ack200 false, sampleDb) ∧
    (ack200 false).status = 200 ∧ (ack200 false).success = false :=
  C4_amended_fetch_failure_acknowledged (mkEnv (.error ())) sampleDb
    "a@x.com" "200" sampleUser rfl (by decide) (by decide) (by decide) rfl

/-- C1, counterexample: the user's stored cursor is `"100"`; a stale
notification carrying the older historyId `"50"` is processed (fetch finds
nothing new) and the stored cursor moves BACKWARD to `"50"`, because the
webhook overwrites `watch_history_id` with the notification value without
comparing it to the stored one. -/
theorem C1_counterexample :
    cursorOf sampleDb "u1" = some "100" ∧
    cursorOf (handleGmailWebhook (mkEnv (.ok [])) sampleDb
      (Body.direct ⟨some "a@x.com", some "50"⟩)).2 "u1" = some "50" ∧
    historyIdNat "50" = some 50 ∧ historyIdNat "100" = some 100 ∧
    (50 : ℕ) < 100 := by
  refine ⟨by decide, by decide, by decide, by decide, by decide⟩

/-- C1, amended: after every completed cycle the cursor is unconditionally
overwritten with the notification's historyId, whatever the stored value
was; replaying a duplicate notification (same historyId) therefore leaves
the cursor at the same value, but monotonicity holds only when notification
historyIds arrive in non-decreasing order. -/
theorem C1_amended_unconditional_overwrite (env : RunEnv) (db : Db)
    (ea hi : String) (u : UserRow) (hl : env.userLookupError = false)
    (hu : findUser db ea = some u) (ha : truthyOpt u.access_token = true)
    (hr : truthyOpt u.refresh_token = true)
    (hf : ∃ es, env.fetchResult = .ok es)
    (hcw : env.cursorWriteError = false) :
    cursorOf (runPipeline env db ea hi).2 u.id = some hi ∧
    (u.watch_history_id = some hi →
      cursorOf (runPipeline env db ea hi).2 u.id = u.watch_history_id) := by
  obtain ⟨es, hes⟩ := hf
  have hmem : ∃ r ∈ db.users, r.id = u.id :=
    ⟨u, List.mem_of_find?_eq_some hu, rfl⟩
  have hcur : cursorOf (runPipeline env db ea hi).2 u.id = some hi := by
    cases es with
    | nil =>
      rw [runPipeline_emptyFetch env db ea hi u hl hu ha hr hes]
      simp only [hcw, Bool.false_eq_true, if_false]
      exact cursorOf_writeCursor db u.id hi hmem
    | cons e es' =>
      rw [runPipeline_consFetch env db ea hi u e es' hl hu ha hr hes]
      simp only [hcw, Bool.false_eq_true, if_false]
      apply cursorOf_writeCursor
      rw [processEmails_users]
      exact hmem
  exact ⟨hcur, fun hdup => by rw [hcur, hdup]⟩

/-- C1, amended, witness: replaying the stored historyId leaves the cursor
at `"100"`. -/
theorem C1_witness :
    cursorOf (runPipeline (mkEnv (.ok [])) sampleDb "a@x.com" "100").2 "u1" =
      some "100" ∧
    (sampleUser.watch_history_id = some "100" →
      cursorOf (runPipeline (mkEnv (.ok [])) sampleDb "a@x.com" "100").2 "u1" =
        sampleUser.watch_history_id) :=
  C1_amended_unconditional_overwrite (mkEnv (.ok [])) sampleDb "a@x.com"
    "100" sampleUser rfl (by decide) (by decide) (by decide) ⟨[], rfl⟩ rfl

/-- C2: whenever the history fetch succeeds — messages or not, and whatever
per-message faults occur — the webhook issues the cursor update exactly once,
the cursor ends at the notification's historyId (when the write itself does
not error), and a message all of whose insert attempts threw is absent from
the store afterwards: dropped, not retried. -/
theorem C2_cursor_advanced_exactly_once (env : RunEnv) (db : Db)
    (ea hi : String) (u : UserRow) (es : List EmailData)
    (hl : env.userLookupError = false) (hu : findUser db ea = some u)
    (ha : truthyOpt u.access_token = true)
    (hr : truthyOpt u.refresh_token = true)
    (hf : env.fetchResult = .ok es) :
    (runPipeline env db ea hi).1.cursorWrites = 1 ∧
    (env.cursorWriteError = false →
      cursorOf (runPipeline env db ea hi).2 u.id = some hi) ∧
    (∀ mid : String,
      (∀ p ∈ zipFaults es env.faults, p.1.id = mid → p.2.insertError = true) →
      dbHasEmail db u.id mid = false →
      dbHasEmail (runPipeline env db ea hi).2 u.id mid = false) := by
  have hmem : ∃ r ∈ db.users, r.id = u.id :=
    ⟨u, List.mem_of_find?_eq_some hu, rfl⟩
  cases es with
  | nil =>
    rw [runPipeline_emptyFetch env db ea hi u hl hu ha hr hf]
    refine ⟨rfl, ?_, ?_⟩
    · intro hcw
      simp only [hcw, Bool.false_eq_true, if_false]
      exact cursorOf_writeCursor db u.id hi hmem
    · intro mid hm h0
      cases hc : env.cursorWriteError with
      | true =>
        simp only [hc, if_true]
        exact h0
      | false =>
        simp only [hc, Bool.false_eq_true, if_false]
        rw [dbHasEmail_writeCursor]
        exact h0
  | cons e es' =>
    rw [runPipeline_consFetch env db ea hi u e es' hl hu ha hr hf]
    refine ⟨rfl, ?_, ?_⟩
    · intro hcw
      simp only [hcw, Bool.false_eq_true, if_false]
      apply cursorOf_writeCursor
      rw [processEmails_users]
      exact hmem
    · intro mid hm h0
      have hdrop : dbHasEmail (processEmails env u.id ⟨db, 0, 0, 0, []⟩
          (zipFaults (e :: es') env.faults)).db u.id mid = false :=
        processEmails_drop env u.id ⟨db, 0, 0, 0, []⟩ _ mid hm h0
      cases hc : env.cursorWriteError with
      | true =>
        simp only [hc, if_true]
        exact hdrop
      | false =>
        simp only [hc, Bool.false_eq_true, if_false]
        rw [dbHasEmail_writeCursor]
        exact hdrop

/-- C2, witness: an empty fetch still writes the cursor once and moves it to
the notification value. -/
theorem C2_witness :
    (runPipeline (mkEnv (.ok [])) sampleDb "a@x.com" "200").1.cursorWrites
      = 1 ∧
    ((mkEnv (.ok [])).cursorWriteError = false →
      cursorOf (runPipeline (mkEnv (.ok [])) sampleDb "a@x.com" "200").2
        sampleUser.id = some "200") ∧
    (∀ mid : String,
      (∀ p ∈ zipFaults ([] : List EmailData) (mkEnv (.ok [])).faults,
        p.1.id = mid → p.2.insertError = true) →
      dbHasEmail sampleDb sampleUser.id mid = false →
      dbHasEmail (runPipeline (mkEnv (.ok [])) sampleDb "a@x.com" "200").2
        sampleUser.id mid = false) :=
  C2_cursor_advanced_exactly_once (mkEnv (.ok [])) sampleDb "a@x.com" "200"
    sampleUser [] rfl (by decide) (by decide) (by decide) rfl

/-- C3: replaying the same notification with the same fetch result over a
fault-free environment is idempotent — the second run leaves the whole store
(messages, accounts and cursor) exactly as the first run left it, reports
`imported = 0` and `failed = 0`, and counts every message of the batch as
skipped. -/
theorem C3_idempotent_replay (env : RunEnv) (db : Db) (ea hi : String)
    (u : UserRow) (es : List EmailData)
    (hl : env.userLookupError = false) (hu : findUser db ea = some u)
    (ha : truthyOpt u.access_token = true)
    (hr : truthyOpt u.refresh_token = true)
    (hf : env.fetchResult = .ok es) (hnf : env.faults = [])
    (hcw : env.cursorWriteError = false) :
    (runPipeline env (runPipeline env db ea hi).2 ea hi).2 =
      (runPipeline env db ea hi).2 ∧
    (runPipeline env (runPipeline env db ea hi).2 ea hi).1.imported = 0 ∧
    (runPipeline env (runPipeline env db ea hi).2 ea hi).1.skipped
      = es.length ∧
    (runPipeline env (runPipeline env db ea hi).2 ea hi).1.failed = 0 := by
  cases es with
  | nil =>
    have hsnd1 : (runPipeline env db ea hi).2 = writeCursor db u.id hi := by
      rw [runPipeline_emptyFetch env db ea hi u hl hu ha hr hf]
      simp only [hcw, Bool.false_eq_true, if_false]
    have hu2 : findUser (writeCursor db u.id hi) ea =
        some { u with watch_history_id := some hi } := by
      rw [findUser_writeCursor, hu]
      simp
    have h2 : runPipeline env (writeCursor db u.id hi) ea hi =
        (⟨200, true, 0, 0, 0, 0, 0, 1⟩,
          writeCursor (writeCursor db u.id hi)
            ({ u with watch_history_id := some hi } : UserRow).id hi) := by
      rw [runPipeline_emptyFetch env (writeCursor db u.id hi) ea hi
        { u with watch_history_id := some hi } hl hu2 ha hr hf]
      simp only [hcw, Bool.false_eq_true, if_false]
    rw [hsnd1, h2]
    refine ⟨?_, rfl, rfl, rfl⟩
    exact writeCursor_idem db u.id hi
  | cons e es' =>
    have hall_nf : ∀ p ∈ zipFaults (e :: es') env.faults, p.2 = noFaults := by
      rw [hnf, zipFaults_nil]
      intro p hp
      obtain ⟨x, -, hpe⟩ := List.mem_map.mp hp
      rw [← hpe]
    have hpresent1 :=
      processEmails_present env u.id ⟨db, 0, 0, 0, []⟩
        (zipFaults (e :: es') env.faults) hall_nf
    have hsnd1 : (runPipeline env db ea hi).2 =
        writeCursor (processEmails env u.id ⟨db, 0, 0, 0, []⟩
          (zipFaults (e :: es') env.faults)).db u.id hi := by
      rw [runPipeline_consFetch env db ea hi u e es' hl hu ha hr hf]
      simp only [hcw, Bool.false_eq_true, if_false]
    have hfind_pe : findUser (processEmails env u.id ⟨db, 0, 0, 0, []⟩
        (zipFaults (e :: es') env.faults)).db ea = findUser db ea := by
      unfold findUser
      rw [processEmails_users]
    have hu2 : findUser (writeCursor (processEmails env u.id ⟨db, 0, 0, 0, []⟩
        (zipFaults (e :: es') env.faults)).db u.id hi) ea =
        some { u with watch_history_id := some hi } := by
      rw [findUser_writeCursor, hfind_pe, hu]
      simp
    have hall2 : ∀ p ∈ zipFaults (e :: es') env.faults,
        dbHasEmail (writeCursor (processEmails env u.id ⟨db, 0, 0, 0, []⟩
          (zipFaults (e :: es') env.faults)).db u.id hi)
          ({ u with watch_history_id := some hi } : UserRow).id p.1.id
          = true := by
      intro p hp
      rw [dbHasEmail_writeCursor]
      exact hpresent1 p hp
    have hsk := processEmails_all_skipped env
      ({ u with watch_history_id := some hi } : UserRow).id
      ⟨writeCursor (processEmails env u.id ⟨db, 0, 0, 0, []⟩
        (zipFaults (e :: es') env.faults)).db u.id hi, 0, 0, 0, []⟩
      (zipFaults (e :: es') env.faults)
      (fun p hp => by rw [hall_nf p hp]; rfl)
      hall2
    have h2 := runPipeline_consFetch env
      (writeCursor (processEmails env u.id ⟨db, 0, 0, 0, []⟩
        (zipFaults (e :: es') env.faults)).db u.id hi) ea hi
      { u with watch_history_id := some hi } e es' hl hu2 ha hr hf
    rw [hsnd1, h2, hsk]
    refine ⟨?_, rfl, ?_, rfl⟩
    · simp only [hcw, Bool.false_eq_true, if_false]
      exact writeCursor_idem
        (processEmails env u.id ⟨db, 0, 0, 0, []⟩
          (zipFaults (e :: es') env.faults)).db u.id hi
    · simp [zipFaults_length]

/-- C3, witness: the same one-message notification replayed over the store
the first run produced. -/
theorem C3_witness :
    (runPipeline (mkEnv (.ok [sampleEmail "m1"]))
      (runPipeline (mkEnv (.ok [sampleEmail "m1"])) sampleDb "a@x.com"
        "200").2 "a@x.com" "200").2 =
      (runPipeline (mkEnv (.ok [sampleEmail "m1"])) sampleDb "a@x.com"
        "200").2 ∧
    (runPipeline (mkEnv (.ok [sampleEmail "m1"]))
      (runPipeline (mkEnv (.ok [sampleEmail "m1"])) sampleDb "a@x.com"
        "200").2 "a@x.com" "200").1.imported = 0 ∧
    (runPipeline (mkEnv (.ok [sampleEmail "m1"]))
      (runPipeline (mkEnv (.ok [sampleEmail "m1"])) sampleDb "a@x.com"
        "200").2 "a@x.com" "200").1.skipped = [sampleEmail "m1"].length ∧
    (runPipeline (mkEnv (.ok [sampleEmail "m1"]))
      (runPipeline (mkEnv (.ok [sampleEmail "m1"])) sampleDb "a@x.com"
        "200").2 "a@x.com" "200").1.failed = 0 :=
  C3_idempotent_replay (mkEnv (.ok [sampleEmail "m1"])) sampleDb "a@x.com"
    "200" sampleUser [sampleEmail "m1"] rfl (by decide) (by decide)
    (by decide) rfl rfl rfl

end EmailCat
